import Mathlib

/-!
Verification development for the hk-paths flight-path animation core.

The embedding models `src/src/Timeline.js` (class `Timeline`: global timeline
computation, animation start/stop/reset, adaptive speed control) and the
time-mapping part of `Viewer.drawFlightPath`, together with the
`feetToMeters` conversion.  Timestamps (JS `Date` values) are rationals in
milliseconds; Cesium `JulianDate` values are rationals in seconds.  JS
floating-point arithmetic is modelled as exact rational arithmetic, except
that division — the one operation the source applies to possibly-zero
denominators — is modelled with its full JS semantics (`0/0 = NaN`,
`x/0 = ±Infinity`), via the `JSNum` type below.
-/

namespace HKPaths

/-- A JS number as produced by the arithmetic in the source: either a finite
value (modelled exactly as a rational), `NaN`, or a signed infinity. -/
inductive JSNum where
  | num : ℚ → JSNum
  | nan : JSNum
  | posInf : JSNum
  | negInf : JSNum
deriving DecidableEq

/-- JS division of two finite values: `a / b` with `0/0 = NaN` and
`x/0 = ±Infinity` for `x ≠ 0`. -/
def jsDivQ (a b : ℚ) : JSNum :=
  if b = 0 then
    if a = 0 then JSNum.nan
    else if 0 < a then JSNum.posInf
    else JSNum.negInf
  else JSNum.num (a / b)

/-- JS multiplication of a (possibly non-finite) value by a finite value. -/
def jsMulQ (a : JSNum) (b : ℚ) : JSNum :=
  match a with
  | JSNum.num q => JSNum.num (q * b)
  | JSNum.nan => JSNum.nan
  | JSNum.posInf => if 0 < b then JSNum.posInf else if b < 0 then JSNum.negInf else JSNum.nan
  | JSNum.negInf => if 0 < b then JSNum.negInf else if b < 0 then JSNum.posInf else JSNum.nan

/-- JS addition of a finite value and a (possibly non-finite) value. -/
def jsAddQ (a : ℚ) (b : JSNum) : JSNum :=
  match b with
  | JSNum.num q => JSNum.num (a + q)
  | JSNum.nan => JSNum.nan
  | JSNum.posInf => JSNum.posInf
  | JSNum.negInf => JSNum.negInf

/-- JS `Math.min` on two values (`NaN` absorbs). -/
def jsMin (a b : JSNum) : JSNum :=
  match a, b with
  | JSNum.nan, _ => JSNum.nan
  | _, JSNum.nan => JSNum.nan
  | JSNum.num x, JSNum.num y => JSNum.num (min x y)
  | JSNum.negInf, _ => JSNum.negInf
  | _, JSNum.negInf => JSNum.negInf
  | JSNum.posInf, b => b
  | a, JSNum.posInf => a

/-- JS `Math.max` on two values (`NaN` absorbs). -/
def jsMax (a b : JSNum) : JSNum :=
  match a, b with
  | JSNum.nan, _ => JSNum.nan
  | _, JSNum.nan => JSNum.nan
  | JSNum.num x, JSNum.num y => JSNum.num (max x y)
  | JSNum.posInf, _ => JSNum.posInf
  | _, JSNum.posInf => JSNum.posInf
  | JSNum.negInf, b => b
  | a, JSNum.negInf => a

/-- One track sample of a flight (`tracks[i]` in the JSON data): parsed
timestamp in milliseconds since epoch, latitude/longitude in degrees,
altitude in feet. -/
structure Track where
  timestamp : ℚ
  lat : ℚ
  lon : ℚ
  alt : ℚ
deriving DecidableEq

/-- One flight record; the source only ever reads `flight.data[0].tracks`,
so the embedding keeps just that track list. -/
structure Flight where
  tracks : List Track
deriving DecidableEq

/-- Timestamp of the first track (`new Date(tracks[0].timestamp)`), when
the track list is non-empty. -/
def firstTs (ts : List Track) : Option ℚ :=
  ts.head?.map Track.timestamp

/-- Timestamp of the last track (`new Date(tracks[tracks.length-1].timestamp)`),
when the track list is non-empty. -/
def lastTs (ts : List Track) : Option ℚ :=
  ts.getLast?.map Track.timestamp

/-- One step of the `flights.forEach` accumulation in
`Timeline.calculateGlobalTimeline` (src/src/Timeline.js lines 38–51):
for a flight with a non-empty track list, fold its first timestamp into
the running `earliestStart` minimum and its last timestamp into the
running `latestEnd` maximum. -/
def spanStep (acc : Option ℚ × Option ℚ) (f : Flight) : Option ℚ × Option ℚ :=
  match firstTs f.tracks, lastTs f.tracks with
  | some fs, some fe =>
    let es := match acc.1 with
      | none => fs
      | some e => if fs < e then fs else e
    let le := match acc.2 with
      | none => fe
      | some l => if l < fe then fe else l
    (some es, some le)
  | _, _ => acc

/-- The `earliestStart`/`latestEnd` scan over all flights
(src/src/Timeline.js lines 34–51). -/
def scanSpan (flights : List Flight) : Option ℚ × Option ℚ :=
  flights.foldl spanStep (none, none)

/-- The global timeline object built by `Timeline.calculateGlobalTimeline`
(src/src/Timeline.js lines 67–77).  `earliestStart`/`latestEnd` are Date
values in milliseconds; `animationStart` is a JulianDate in seconds;
`animationDuration` is in seconds. -/
structure GlobalTimeline where
  earliestStart : ℚ
  latestEnd : ℚ
  animationStart : ℚ
  animationDuration : ℚ
  realDurationHours : ℚ
deriving DecidableEq

/-- Error message thrown for an empty flight list
(src/src/Timeline.js line 31). -/
def errNoFlights : String := "No flights provided for timeline calculation"

/-- Error message thrown when no flight yields a determinable span
(src/src/Timeline.js lines 54–56). -/
def errNoValidTimeline : String :=
  "Could not determine valid global timeline from flight data"

/-- Error message thrown by `startAnimation` without a computed timeline
(src/src/Timeline.js lines 94–96). -/
def errNotInitialized : String :=
  "No global timeline available. Calculate timeline first."

/-- Error message thrown by `startAnimation` while already running
(src/src/Timeline.js line 100). -/
def errAlreadyPlaying : String := "Animation is already running"

/-- The pure result of `Timeline.calculateGlobalTimeline`
(src/src/Timeline.js lines 25–86): throws on an empty flight list, scans
for the global span, throws if none was determined, otherwise returns the
global timeline object with `animationDuration =
max(globalRealDuration / animationScaleFactor, minDuration)` and
`animationStart = now + 2` seconds. -/
def calcGlobalTimelineResult (flights : List Flight) (now scaleFactor minDuration : ℚ) :
    Except String GlobalTimeline :=
  if flights.isEmpty then Except.error errNoFlights
  else
    match scanSpan flights with
    | (some es, some le) =>
      let globalRealDuration := le - es
      Except.ok
        { earliestStart := es
          latestEnd := le
          animationStart := now + 2
          animationDuration := max (globalRealDuration / scaleFactor) minDuration
          realDurationHours := globalRealDuration / (1000 * 60 * 60) }
    | _ => Except.error errNoValidTimeline

/-- Cesium `ClockRange` values the source uses. -/
inductive ClockRange where
  | unbounded : ClockRange
  | clamped : ClockRange
deriving DecidableEq

/-- The driving Cesium clock state, as read and written by the source:
`startTime`/`stopTime` may be `undefined` (after `reset`), `multiplier`
is a JS number (it can become `NaN` through
`updateSpeedForConstantPixelRate`). -/
structure CesiumClock where
  startTime : Option ℚ
  stopTime : Option ℚ
  currentTime : ℚ
  multiplier : JSNum
  shouldAnimate : Bool
  clockRange : ClockRange
deriving DecidableEq

/-- The mutable state of a `Timeline` instance: its clock, the stored
`globalTimeline` (null before computation and after `reset`), and the
`isAnimating` flag. -/
structure TimelineState where
  clock : CesiumClock
  globalTimeline : Option GlobalTimeline
  isAnimating : Bool
deriving DecidableEq

/-- The stateful `Timeline.calculateGlobalTimeline` method: on success it
stores the computed timeline in `this.globalTimeline`; on a thrown error
the stored state is left untouched (the throw happens before the
assignment, src/src/Timeline.js lines 30–67). -/
def calculateGlobalTimeline (st : TimelineState) (flights : List Flight)
    (now scaleFactor minDuration : ℚ) :
    TimelineState × Except String GlobalTimeline :=
  match calcGlobalTimelineResult flights now scaleFactor minDuration with
  | Except.ok gt => ({ st with globalTimeline := some gt }, Except.ok gt)
  | Except.error e => (st, Except.error e)

/-- `Timeline.startAnimation` (src/src/Timeline.js lines 92–126): throws
`NotInitialized` without a computed timeline, throws `AlreadyPlaying`
while running, otherwise configures the driving clock (bounds, current
time at `animationStart`, multiplier reset to 1.0, clamped range,
animating) and sets `isAnimating`. -/
def startAnimation (st : TimelineState) : TimelineState × Except String Bool :=
  match st.globalTimeline with
  | none => (st, Except.error errNotInitialized)
  | some gt =>
    if st.isAnimating then (st, Except.error errAlreadyPlaying)
    else
      let globalAnimationEnd := gt.animationStart + gt.animationDuration
      ({ st with
          clock :=
            { startTime := some gt.animationStart
              stopTime := some globalAnimationEnd
              currentTime := gt.animationStart
              multiplier := JSNum.num 1
              shouldAnimate := true
              clockRange := ClockRange.clamped }
          isAnimating := true }, Except.ok true)

/-- `Timeline.stopAnimation` (src/src/Timeline.js lines 131–137). -/
def stopAnimation (st : TimelineState) : TimelineState :=
  { st with clock := { st.clock with shouldAnimate := false }, isAnimating := false }

/-- `Timeline.reset` (src/src/Timeline.js lines 142–153): stop, clear the
stored timeline, reset the clock's current time to now and clear its
bounds. -/
def reset (st : TimelineState) (now : ℚ) : TimelineState :=
  let st' := stopAnimation st
  { st' with
      globalTimeline := none
      clock := { st'.clock with
                  currentTime := now
                  startTime := none
                  stopTime := none } }

/-- The clamped speed multiplier computed by
`Timeline.updateSpeedForConstantPixelRate` (src/src/Timeline.js lines
206–215): `Math.max(minSpeed, Math.min(maxSpeed, currentAltitude / baseAltitude))`
in JS semantics. -/
def clampedMultiplier (currentAltitude baseAltitude minSpeed maxSpeed : ℚ) : JSNum :=
  jsMax (JSNum.num minSpeed) (jsMin (JSNum.num maxSpeed) (jsDivQ currentAltitude baseAltitude))

/-- `Timeline.updateSpeedForConstantPixelRate` (src/src/Timeline.js lines
196–219): a no-op unless animating; otherwise writes the clamped
altitude-ratio multiplier to the driving clock. -/
def updateSpeedForConstantPixelRate (st : TimelineState)
    (currentAltitude baseAltitude minSpeed maxSpeed : ℚ) : TimelineState :=
  if st.isAnimating then
    { st with clock := { st.clock with
        multiplier := clampedMultiplier currentAltitude baseAltitude minSpeed maxSpeed } }
  else st

/-- `feetToMeters` (src/unnamed/part_003 lines 6–9): multiply by 0.3048. -/
def feetToMeters (feet : ℚ) : ℚ := feet * (3048 / 10000)

/-- The start-offset fraction of `Viewer.drawFlightPath`
(src/src/Timeline.js line 518): `(realStartTime − earliestStart) /
(latestEnd − earliestStart)` in JS semantics. -/
def flightStartOffset (gt : GlobalTimeline) (realStartTime : ℚ) : JSNum :=
  jsDivQ (realStartTime - gt.earliestStart) (gt.latestEnd - gt.earliestStart)

/-- The end-offset fraction of `Viewer.drawFlightPath`
(src/src/Timeline.js line 519). -/
def flightEndOffset (gt : GlobalTimeline) (realEndTime : ℚ) : JSNum :=
  jsDivQ (realEndTime - gt.earliestStart) (gt.latestEnd - gt.earliestStart)

/-- The mapped compressed start time of a flight
(`startTime` in src/src/Timeline.js lines 521–525):
`animationStart + flightStartOffset * animationDuration`. -/
def mappedStartTime (gt : GlobalTimeline) (realStartTime : ℚ) : JSNum :=
  jsAddQ gt.animationStart (jsMulQ (flightStartOffset gt realStartTime) gt.animationDuration)

/-- The mapped compressed end time of a flight
(`endTime` in src/src/Timeline.js lines 526–530). -/
def mappedEndTime (gt : GlobalTimeline) (realEndTime : ℚ) : JSNum :=
  jsAddQ gt.animationStart (jsMulQ (flightEndOffset gt realEndTime) gt.animationDuration)

/-- The per-sample animation time of `Viewer.drawFlightPath`
(src/src/Timeline.js lines 544–551):
`startTime + ((trackTime − realStart) / (realEnd − realStart)) *
(endTime − startTime)`, where `endTime − startTime` is the
`flightAnimationDuration` of line 532, in JS semantics. -/
def sampleAnimTime (startT endT realStart realEnd t : ℚ) : JSNum :=
  jsAddQ startT (jsMulQ (jsDivQ (t - realStart) (realEnd - realStart)) (endT - startT))

/-- A rendered position: latitude/longitude in degrees, height in meters. -/
structure Position where
  lat : ℚ
  lon : ℚ
  height : ℚ
deriving DecidableEq

/-- The finite per-sample placement formula, the value `sampleAnimTime`
takes whenever the flight's real span is non-degenerate. -/
def knotTime (startT endT realStart realEnd t : ℚ) : ℚ :=
  startT + ((t - realStart) / (realEnd - realStart)) * (endT - startT)

/-- The sampled-position list built by the loop of
`Viewer.drawFlightPath` (src/src/Timeline.js lines 542–560), with each
sample's animation time in its finite `knotTime` form and its altitude
converted feet→meters. -/
def mappedSamples (startT endT realStart realEnd : ℚ) (tracks : List Track) :
    List (ℚ × Position) :=
  tracks.map (fun tr =>
    (knotTime startT endT realStart realEnd tr.timestamp,
     { lat := tr.lat, lon := tr.lon, height := feetToMeters tr.alt }))

/-- Linear interpolation between two positions at fraction `f`. -/
def lerpPos (p q : Position) (f : ℚ) : Position :=
  { lat := p.lat + f * (q.lat - p.lat)
    lon := p.lon + f * (q.lon - p.lon)
    height := p.height + f * (q.height - p.height) }

/-- Modelled from the spec: the Trajectory Interpolator's
`positionAt` (spec §4.2).  The sample-to-position evaluation itself is
performed by Cesium's `SampledPositionProperty` with
`interpolationDegree: 1` / `LinearApproximation` (configured at
src/src/Timeline.js lines 535–539 but implemented outside this
repository): before the first knot the trajectory is not visible
(`none`); between two bracketing knots the position is the first-degree
interpolation by compressed-time fraction; at or after the last knot the
trajectory is frozen at its last position. -/
def positionAt : List (ℚ × Position) → ℚ → Option Position
  | [], _ => none
  | [(t0, p0)], t => if t < t0 then none else some p0
  | (t0, p0) :: (t1, p1) :: rest, t =>
    if t < t0 then none
    else if t ≤ t1 then some (lerpPos p0 p1 ((t - t0) / (t1 - t0)))
    else positionAt ((t1, p1) :: rest) t

/-- A concrete quiescent timeline state used by the witnesses. -/
def initState : TimelineState :=
  { clock :=
      { startTime := none
        stopTime := none
        currentTime := 0
        multiplier := JSNum.num 1
        shouldAnimate := false
        clockRange := ClockRange.unbounded }
    globalTimeline := none
    isAnimating := false }

/-- A concrete global timeline used by the witnesses. -/
def gtW : GlobalTimeline :=
  { earliestStart := 0
    latestEnd := 5400000
    animationStart := 2
    animationDuration := 1500
    realDurationHours := 3 / 2 }

/-- A concrete ready-to-play state whose clock carries a leftover
multiplier of 7, used by the C10 witness. -/
def stReady : TimelineState :=
  { initState with
      clock := { initState.clock with multiplier := JSNum.num 7 }
      globalTimeline := some gtW }

/-- A concrete playing state used by counterexamples and witnesses. -/
def stPlaying : TimelineState :=
  { initState with globalTimeline := some gtW, isAnimating := true }

/-- A rate multiplier "lies within `[lo, hi]`" when it is a finite value in
that interval; `NaN` and the infinities never do. -/
def multiplierInRange (x : JSNum) (lo hi : ℚ) : Prop :=
  ∃ q, x = JSNum.num q ∧ lo ≤ q ∧ q ≤ hi

/-- A track at time 0 used to build a single-instant batch. -/
def trInstant : Track :=
  { timestamp := 0, lat := 22, lon := 114, alt := 0 }

/-- The global timeline the code computes for the single-instant batch
`[{tracks := [trInstant, trInstant]}]` with `now = 8`,
`scaleFactor = 30000`, `minDuration = 30`. -/
def gtDeg : GlobalTimeline :=
  { earliestStart := 0
    latestEnd := 0
    animationStart := 10
    animationDuration := 30
    realDurationHours := 0 }

/-- A track with fixed position fields at a given timestamp, used by the
concrete scenarios. -/
def trackAt (t : ℚ) : Track :=
  { timestamp := t, lat := 22, lon := 114, alt := 1000 }

/-- Trajectory A of the spec §8 scenario at base time 0: real span
`[0, 3600000]` milliseconds, two samples. -/
def flA : Flight := { tracks := [trackAt 0, trackAt 3600000] }

/-- Trajectory B of the spec §8 scenario at base time 0: real span
`[1800000, 5400000]` milliseconds, two samples. -/
def flB : Flight := { tracks := [trackAt 1800000, trackAt 5400000] }

/-- The global timeline the code computes for `[flA, flB]` with `now = 0`,
`scaleFactor = 3600`, `minDuration = 30`. -/
def gtAB : GlobalTimeline :=
  { earliestStart := 0
    latestEnd := 5400000
    animationStart := 2
    animationDuration := 1500
    realDurationHours := 3 / 2 }

/-- The global timeline the code computes for `[flA]` alone with `now = 0`,
`scaleFactor = 3600`, `minDuration = 30`. -/
def gtA : GlobalTimeline :=
  { earliestStart := 0
    latestEnd := 3600000
    animationStart := 2
    animationDuration := 1000
    realDurationHours := 1 }

/-- Samples of a trajectory are time-ascending: each consecutive pair of
timestamps is non-decreasing. -/
def TimeAsc (ts : List Track) : Prop :=
  List.Chain' (fun a b => a.timestamp ≤ b.timestamp) ts

/-- Samples of a trajectory are strictly time-ascending: each consecutive
pair of timestamps increases. -/
def StrictTimeAsc (ts : List Track) : Prop :=
  List.Chain' (fun a b => a.timestamp < b.timestamp) ts

end HKPaths

namespace HKPaths

/-- Folding the span scan over flights that all have empty track lists
leaves the accumulator untouched. -/
lemma foldl_spanStep_all_empty (flights : List Flight) (acc : Option ℚ × Option ℚ)
    (h : ∀ f ∈ flights, f.tracks = []) : flights.foldl spanStep acc = acc := by
  induction flights generalizing acc with
  | nil => rfl
  | cons f rest ih =>
    have hf : f.tracks = [] := h f (by simp)
    have hstep : spanStep acc f = acc := by
      simp [spanStep, firstTs, hf]
    rw [List.foldl_cons, hstep]
    exact ih acc (fun g hg => h g (by simp [hg]))

end HKPaths

/-- Claim C8: `calculateGlobalTimeline` fails with an error when the flight
list is empty, and with an error when no flight yields a determinable span
(all track lists empty); in both cases the stored timeline state is
returned unchanged — no partial global span replaces it. -/
theorem HKPaths.calculateGlobalTimeline_invalid_input (st : HKPaths.TimelineState)
    (flights : List HKPaths.Flight) (now scaleFactor minDuration : ℚ) :
    (flights = [] →
      HKPaths.calculateGlobalTimeline st flights now scaleFactor minDuration =
        (st, Except.error HKPaths.errNoFlights)) ∧
    ((∀ f ∈ flights, f.tracks = []) → flights ≠ [] →
      HKPaths.calculateGlobalTimeline st flights now scaleFactor minDuration =
        (st, Except.error HKPaths.errNoValidTimeline)) := by
  constructor
  · intro h
    subst h
    rfl
  · intro hall hne
    have hscan : HKPaths.scanSpan flights = (none, none) :=
      HKPaths.foldl_spanStep_all_empty flights (none, none) hall
    have hempty : flights.isEmpty = false := by
      cases flights with
      | nil => exact absurd rfl hne
      | cons f rest => rfl
    simp [HKPaths.calculateGlobalTimeline, HKPaths.calcGlobalTimelineResult, hempty, hscan]

/-- Witness for C8 at concrete inputs: the empty batch and a batch of one
flight with no tracks both fail and leave the state unchanged. -/
theorem HKPaths.calculateGlobalTimeline_invalid_input_witness :
    HKPaths.calculateGlobalTimeline HKPaths.initState [] 0 30000 30 =
      (HKPaths.initState, Except.error HKPaths.errNoFlights) ∧
    HKPaths.calculateGlobalTimeline HKPaths.initState [{ tracks := [] }] 0 30000 30 =
      (HKPaths.initState, Except.error HKPaths.errNoValidTimeline) := by
  constructor
  · exact (HKPaths.calculateGlobalTimeline_invalid_input HKPaths.initState [] 0 30000 30).1 rfl
  · exact (HKPaths.calculateGlobalTimeline_invalid_input HKPaths.initState
      [{ tracks := [] }] 0 30000 30).2 (by intro f hf; simp at hf; simp [hf]) (by simp)

/-- Claim C9: `startAnimation` fails with the not-initialized error when no
global timeline has been computed (in particular right after `reset`), and
with the already-playing error when called while running; in both failure
cases the state — playing flag and driving clock included — is unchanged. -/
theorem HKPaths.startAnimation_failure_cases (st : HKPaths.TimelineState) :
    (st.globalTimeline = none →
      HKPaths.startAnimation st = (st, Except.error HKPaths.errNotInitialized)) ∧
    (∀ gt, st.globalTimeline = some gt → st.isAnimating = true →
      HKPaths.startAnimation st = (st, Except.error HKPaths.errAlreadyPlaying)) ∧
    (∀ now, HKPaths.startAnimation (HKPaths.reset st now) =
      (HKPaths.reset st now, Except.error HKPaths.errNotInitialized)) := by
  refine ⟨?_, ?_, ?_⟩
  · intro h
    simp [HKPaths.startAnimation, h]
  · intro gt hgt hrun
    simp [HKPaths.startAnimation, hgt, hrun]
  · intro now
    simp [HKPaths.startAnimation, HKPaths.reset, HKPaths.stopAnimation]

/-- Witness for C9 at concrete states: a fresh state fails not-initialized,
and a playing state with a computed timeline fails already-playing, both
unchanged. -/
theorem HKPaths.startAnimation_failure_cases_witness :
    HKPaths.startAnimation HKPaths.initState =
      (HKPaths.initState, Except.error HKPaths.errNotInitialized) ∧
    HKPaths.startAnimation
        { HKPaths.initState with globalTimeline := some HKPaths.gtW, isAnimating := true } =
      ({ HKPaths.initState with globalTimeline := some HKPaths.gtW, isAnimating := true },
        Except.error HKPaths.errAlreadyPlaying) := by
  constructor
  · exact (HKPaths.startAnimation_failure_cases HKPaths.initState).1 rfl
  · exact (HKPaths.startAnimation_failure_cases
      { HKPaths.initState with globalTimeline := some HKPaths.gtW, isAnimating := true }).2.1
      HKPaths.gtW rfl rfl

/-- Claim C10: every successful `startAnimation` call sets the driving
clock's multiplier back to exactly 1.0 and its current time to
`animationStart`, regardless of any multiplier previously set. -/
theorem HKPaths.startAnimation_resets_rate (st st' : HKPaths.TimelineState)
    (gt : HKPaths.GlobalTimeline) (r : Bool)
    (hgt : st.globalTimeline = some gt)
    (h : HKPaths.startAnimation st = (st', Except.ok r)) :
    st'.clock.multiplier = HKPaths.JSNum.num 1 ∧
    st'.clock.currentTime = gt.animationStart := by
  unfold HKPaths.startAnimation at h
  rw [hgt] at h
  by_cases hrun : st.isAnimating
  · simp [hrun] at h
  · simp [hrun] at h
    obtain ⟨hst, -⟩ := h
    subst hst
    exact ⟨rfl, rfl⟩

/-- Witness for C10 at a concrete ready state whose previous multiplier is
7: after a successful start the multiplier is 1 and the current time is
the animation start. -/
theorem HKPaths.startAnimation_resets_rate_witness :
    (HKPaths.startAnimation HKPaths.stReady).1.clock.multiplier = HKPaths.JSNum.num 1 ∧
    (HKPaths.startAnimation HKPaths.stReady).1.clock.currentTime =
      HKPaths.gtW.animationStart :=
  HKPaths.startAnimation_resets_rate HKPaths.stReady
    (HKPaths.startAnimation HKPaths.stReady).1 HKPaths.gtW true rfl (by rfl)

/-- Counterexample to C7: with playback active and both the current and the
base viewer distance equal to 0, the JS quotient is `0/0 = NaN`, `NaN`
survives `Math.min`/`Math.max`, and the multiplier written to the clock is
`NaN` — outside `[0.01, 100]`. -/
theorem HKPaths.updateRate_zero_distances_outside_range :
    (HKPaths.updateSpeedForConstantPixelRate HKPaths.stPlaying 0 0 (1 / 100) 100).clock.multiplier =
      HKPaths.JSNum.nan ∧
    ¬ HKPaths.multiplierInRange
        (HKPaths.updateSpeedForConstantPixelRate HKPaths.stPlaying 0 0 (1 / 100) 100).clock.multiplier
        (1 / 100) 100 := by
  constructor
  · rfl
  · intro h
    obtain ⟨q, hq, -, -⟩ := h
    have : HKPaths.JSNum.nan = HKPaths.JSNum.num q := by
      rw [← hq]
      rfl
    exact HKPaths.JSNum.noConfusion this

/-- Claim C7 (amended): when playback is active, `minMultiplier ≤
maxMultiplier`, and the two distances are not both zero, the multiplier
written by `updateSpeedForConstantPixelRate` is a finite value in
`[minMultiplier, maxMultiplier]`; and whenever the base distance is
nonzero the pre-clamp value is exactly the finite ratio
`currentViewerDistance / baseViewerDistance`. -/
theorem HKPaths.updateRate_clamped (st : HKPaths.TimelineState)
    (currentAltitude baseAltitude minSpeed maxSpeed : ℚ)
    (hplay : st.isAnimating = true) (hmm : minSpeed ≤ maxSpeed)
    (hnz : ¬(currentAltitude = 0 ∧ baseAltitude = 0)) :
    HKPaths.multiplierInRange
      (HKPaths.updateSpeedForConstantPixelRate st currentAltitude baseAltitude
        minSpeed maxSpeed).clock.multiplier minSpeed maxSpeed ∧
    (baseAltitude ≠ 0 →
      HKPaths.jsDivQ currentAltitude baseAltitude =
        HKPaths.JSNum.num (currentAltitude / baseAltitude)) := by
  constructor
  · have hm : (HKPaths.updateSpeedForConstantPixelRate st currentAltitude baseAltitude
        minSpeed maxSpeed).clock.multiplier =
        HKPaths.clampedMultiplier currentAltitude baseAltitude minSpeed maxSpeed := by
      simp [HKPaths.updateSpeedForConstantPixelRate, hplay]
    rw [hm]
    by_cases hb : baseAltitude = 0
    · have hc : currentAltitude ≠ 0 := fun hc => hnz ⟨hc, hb⟩
      by_cases hpos : 0 < currentAltitude
      · have : HKPaths.clampedMultiplier currentAltitude baseAltitude minSpeed maxSpeed =
            HKPaths.JSNum.num (max minSpeed maxSpeed) := by
          simp [HKPaths.clampedMultiplier, HKPaths.jsDivQ, hb, hc, hpos, HKPaths.jsMin,
            HKPaths.jsMax]
        rw [this]
        exact ⟨max minSpeed maxSpeed, rfl, le_max_left _ _, max_le hmm le_rfl⟩
      · have : HKPaths.clampedMultiplier currentAltitude baseAltitude minSpeed maxSpeed =
            HKPaths.JSNum.num minSpeed := by
          simp [HKPaths.clampedMultiplier, HKPaths.jsDivQ, hb, hc, hpos, HKPaths.jsMin,
            HKPaths.jsMax]
        rw [this]
        exact ⟨minSpeed, rfl, le_rfl, hmm⟩
    · have : HKPaths.clampedMultiplier currentAltitude baseAltitude minSpeed maxSpeed =
          HKPaths.JSNum.num (max minSpeed (min maxSpeed (currentAltitude / baseAltitude))) := by
        simp [HKPaths.clampedMultiplier, HKPaths.jsDivQ, hb, HKPaths.jsMin, HKPaths.jsMax]
      rw [this]
      refine ⟨_, rfl, le_max_left _ _, max_le hmm (le_trans (min_le_left _ _) le_rfl)⟩
  · intro hb
    simp [HKPaths.jsDivQ, hb]

/-- Witness for the amended C7 at a concrete call: distance ratio 200/1
clamps to the maximum 100, which lies in `[0.01, 100]`, and the pre-clamp
ratio is the finite quotient 200. -/
theorem HKPaths.updateRate_clamped_witness :
    HKPaths.multiplierInRange
      (HKPaths.updateSpeedForConstantPixelRate HKPaths.stPlaying 200 1
        (1 / 100) 100).clock.multiplier (1 / 100) 100 ∧
    (HKPaths.jsDivQ 200 1 = HKPaths.JSNum.num (200 / 1)) :=
  ⟨(HKPaths.updateRate_clamped HKPaths.stPlaying 200 1 (1 / 100) 100 rfl (by norm_num)
      (by norm_num)).1,
   (HKPaths.updateRate_clamped HKPaths.stPlaying 200 1 (1 / 100) 100 rfl (by norm_num)
      (by norm_num)).2 (by norm_num)⟩

/-- Counterexample to C6: for a reachable single-instant batch (one flight
with two samples at the same timestamp) the computed span is degenerate,
and the offset fractions of `drawFlightPath` are the JS value `0/0 = NaN`
— not 0 — so the mapped compressed times are `NaN` as well. -/
theorem HKPaths.degenerate_span_offset_is_nan :
    HKPaths.calcGlobalTimelineResult
        [{ tracks := [HKPaths.trInstant, HKPaths.trInstant] }] 8 30000 30 =
      Except.ok HKPaths.gtDeg ∧
    HKPaths.flightStartOffset HKPaths.gtDeg 0 = HKPaths.JSNum.nan ∧
    HKPaths.flightEndOffset HKPaths.gtDeg 0 = HKPaths.JSNum.nan ∧
    HKPaths.flightStartOffset HKPaths.gtDeg 0 ≠ HKPaths.JSNum.num 0 ∧
    HKPaths.mappedStartTime HKPaths.gtDeg 0 = HKPaths.JSNum.nan ∧
    HKPaths.mappedEndTime HKPaths.gtDeg 0 = HKPaths.JSNum.nan := by
  have hso : HKPaths.flightStartOffset HKPaths.gtDeg 0 = HKPaths.JSNum.nan := by
    simp [HKPaths.flightStartOffset, HKPaths.gtDeg, HKPaths.jsDivQ]
  have heo : HKPaths.flightEndOffset HKPaths.gtDeg 0 = HKPaths.JSNum.nan := by
    simp [HKPaths.flightEndOffset, HKPaths.gtDeg, HKPaths.jsDivQ]
  refine ⟨?_, hso, heo, by simp [hso], ?_, ?_⟩
  · have hscan : HKPaths.scanSpan [{ tracks := [HKPaths.trInstant, HKPaths.trInstant] }] =
        (some 0, some 0) := by
      simp [HKPaths.scanSpan, HKPaths.spanStep, HKPaths.firstTs, HKPaths.lastTs,
        HKPaths.trInstant]
    simp [HKPaths.calcGlobalTimelineResult, hscan, HKPaths.gtDeg]
    norm_num
  · rw [HKPaths.mappedStartTime, hso]
    rfl
  · rw [HKPaths.mappedEndTime, heo]
    rfl

/-- Claim C6 (amended): when `latestEnd` equals `earliestStart`, the start
and end offset fractions computed for a trajectory whose real span lies in
the (single-instant) global span are `NaN` — the JS quotient `0/0` — not
0, and the mapped compressed start and end times are `NaN` too: the code
does not handle the degenerate batch safely. -/
theorem HKPaths.degenerate_span_mapping_nan (gt : HKPaths.GlobalTimeline)
    (realStartTime realEndTime : ℚ)
    (hdeg : gt.latestEnd = gt.earliestStart)
    (hrs : realStartTime = gt.earliestStart) (hre : realEndTime = gt.earliestStart) :
    HKPaths.flightStartOffset gt realStartTime = HKPaths.JSNum.nan ∧
    HKPaths.flightEndOffset gt realEndTime = HKPaths.JSNum.nan ∧
    HKPaths.mappedStartTime gt realStartTime = HKPaths.JSNum.nan ∧
    HKPaths.mappedEndTime gt realEndTime = HKPaths.JSNum.nan := by
  subst hrs hre
  have h1 : HKPaths.flightStartOffset gt gt.earliestStart = HKPaths.JSNum.nan := by
    simp [HKPaths.flightStartOffset, HKPaths.jsDivQ, hdeg]
  have h2 : HKPaths.flightEndOffset gt gt.earliestStart = HKPaths.JSNum.nan := by
    simp [HKPaths.flightEndOffset, HKPaths.jsDivQ, hdeg]
  refine ⟨h1, h2, ?_, ?_⟩
  · rw [HKPaths.mappedStartTime, h1]
    rfl
  · rw [HKPaths.mappedEndTime, h2]
    rfl

/-- Witness for the amended C6 at the concrete degenerate timeline. -/
theorem HKPaths.degenerate_span_mapping_nan_witness :
    HKPaths.flightStartOffset HKPaths.gtDeg 0 = HKPaths.JSNum.nan ∧
    HKPaths.flightEndOffset HKPaths.gtDeg 0 = HKPaths.JSNum.nan ∧
    HKPaths.mappedStartTime HKPaths.gtDeg 0 = HKPaths.JSNum.nan ∧
    HKPaths.mappedEndTime HKPaths.gtDeg 0 = HKPaths.JSNum.nan :=
  HKPaths.degenerate_span_mapping_nan HKPaths.gtDeg 0 0 (by decide) (by decide) (by decide)

namespace HKPaths

/-- Inversion of a successful `calcGlobalTimelineResult`: the returned
object stores the scanned span, `animationStart = now + 2`, and the
duration formula `max(globalRealDuration / scaleFactor, minDuration)`. -/
lemma calcGlobalTimelineResult_ok_spec (flights : List Flight)
    (now scaleFactor minDuration : ℚ) (gt : GlobalTimeline)
    (h : calcGlobalTimelineResult flights now scaleFactor minDuration = Except.ok gt) :
    scanSpan flights = (some gt.earliestStart, some gt.latestEnd) ∧
    gt.animationStart = now + 2 ∧
    gt.animationDuration = max ((gt.latestEnd - gt.earliestStart) / scaleFactor) minDuration := by
  unfold calcGlobalTimelineResult at h
  rcases hfe : flights.isEmpty with _ | _
  · rw [hfe] at h
    simp only [Bool.false_eq_true, if_false] at h
    rcases hscan : scanSpan flights with ⟨es?, le?⟩
    rw [hscan] at h
    match es?, le? with
    | none, none => simp at h
    | none, some le => simp at h
    | some es, none => simp at h
    | some es, some le =>
      simp only [Except.ok.injEq] at h
      subst h
      exact ⟨rfl, rfl, rfl⟩
  · rw [hfe] at h
    simp at h

/-- The first component of the span accumulator only ever decreases, and
it bounds every scanned flight's first timestamp from below. -/
lemma foldl_spanStep_fst_le (flights : List Flight) :
    ∀ (acc : Option ℚ × Option ℚ) (es : ℚ),
      (flights.foldl spanStep acc).1 = some es →
      (∀ e0, acc.1 = some e0 → es ≤ e0) ∧
      (∀ f ∈ flights, ∀ fs, firstTs f.tracks = some fs → es ≤ fs) := by
  induction flights with
  | nil =>
    intro acc es h
    refine ⟨fun e0 he0 => ?_, by simp⟩
    simp only [List.foldl_nil] at h
    rw [he0] at h
    exact le_of_eq (Option.some.inj h).symm
  | cons f rest ih =>
    intro acc es h
    rw [List.foldl_cons] at h
    obtain ⟨ihA, ihB⟩ := ih (spanStep acc f) es h
    rcases hfs : firstTs f.tracks with _ | fs
    · have hnil : f.tracks = [] := by
        cases htr : f.tracks with
        | nil => rfl
        | cons t ts => rw [htr] at hfs; simp [firstTs] at hfs
      have hstep : spanStep acc f = acc := by simp [spanStep, firstTs, hnil]
      rw [hstep] at ihA
      refine ⟨ihA, ?_⟩
      intro g hg gs hgs
      rcases List.mem_cons.mp hg with rfl | hg
      · rw [hfs] at hgs
        exact absurd hgs (by simp)
      · exact ihB g hg gs hgs
    · have hcons : f.tracks ≠ [] := by
        intro hnil
        rw [hnil] at hfs
        simp [firstTs] at hfs
      rcases hfe : lastTs f.tracks with _ | fe
      · exfalso
        cases htr : f.tracks with
        | nil => exact hcons htr
        | cons t ts =>
          rw [htr] at hfe
          simp [lastTs] at hfe
      · have hstep1 : (spanStep acc f).1 =
            some (match acc.1 with
                  | none => fs
                  | some e => if fs < e then fs else e) := by
          simp [spanStep, hfs, hfe]
        refine ⟨?_, ?_⟩
        · intro e0 he0
          have := ihA _ hstep1
          rw [he0] at this
          rcases lt_or_le fs e0 with hlt | hle
          · simp only [if_pos hlt] at this
            exact le_trans this (le_of_lt hlt)
          · simp only [if_neg (not_lt.mpr hle)] at this
            exact this
        · intro g hg gs hgs
          rcases List.mem_cons.mp hg with rfl | hg
          · rw [hfs] at hgs
            obtain rfl : fs = gs := Option.some.inj hgs
            have := ihA _ hstep1
            rcases hacc1 : acc.1 with _ | e0
            · rw [hacc1] at this
              exact this
            · rw [hacc1] at this
              have h1 : es ≤ if fs < e0 then fs else e0 := this
              rcases lt_or_le fs e0 with hlt | hle
              · rwa [if_pos hlt] at h1
              · rw [if_neg (not_lt.mpr hle)] at h1
                exact le_trans h1 hle
          · exact ihB g hg gs hgs

/-- The second component of the span accumulator only ever increases, and
it bounds every scanned flight's last timestamp from above. -/
lemma foldl_spanStep_snd_ge (flights : List Flight) :
    ∀ (acc : Option ℚ × Option ℚ) (le : ℚ),
      (flights.foldl spanStep acc).2 = some le →
      (∀ l0, acc.2 = some l0 → l0 ≤ le) ∧
      (∀ f ∈ flights, ∀ fe, lastTs f.tracks = some fe → fe ≤ le) := by
  induction flights with
  | nil =>
    intro acc le h
    refine ⟨fun l0 hl0 => ?_, by simp⟩
    simp only [List.foldl_nil] at h
    rw [hl0] at h
    exact le_of_eq (Option.some.inj h)
  | cons f rest ih =>
    intro acc le h
    rw [List.foldl_cons] at h
    obtain ⟨ihA, ihB⟩ := ih (spanStep acc f) le h
    rcases hfe : lastTs f.tracks with _ | fe
    · have hnil : f.tracks = [] := by
        cases htr : f.tracks with
        | nil => rfl
        | cons t ts => rw [htr] at hfe; simp [lastTs] at hfe
      have hstep : spanStep acc f = acc := by simp [spanStep, firstTs, hnil]
      rw [hstep] at ihA
      refine ⟨ihA, ?_⟩
      intro g hg ge hge
      rcases List.mem_cons.mp hg with rfl | hg
      · rw [hfe] at hge
        exact absurd hge (by simp)
      · exact ihB g hg ge hge
    · rcases hfs : firstTs f.tracks with _ | fs
      · exfalso
        cases htr : f.tracks with
        | nil =>
          rw [htr] at hfe
          simp [lastTs] at hfe
        | cons t ts =>
          rw [htr] at hfs
          simp [firstTs] at hfs
      · have hstep2 : (spanStep acc f).2 =
            some (match acc.2 with
                  | none => fe
                  | some l => if l < fe then fe else l) := by
          simp [spanStep, hfs, hfe]
        refine ⟨?_, ?_⟩
        · intro l0 hl0
          have := ihA _ hstep2
          rw [hl0] at this
          rcases lt_or_le l0 fe with hlt | hle
          · simp only [if_pos hlt] at this
            exact le_trans (le_of_lt hlt) this
          · simp only [if_neg (not_lt.mpr hle)] at this
            exact this
        · intro g hg ge hge
          rcases List.mem_cons.mp hg with rfl | hg
          · rw [hfe] at hge
            obtain rfl : fe = ge := Option.some.inj hge
            have := ihA _ hstep2
            rcases hacc2 : acc.2 with _ | l0
            · rw [hacc2] at this
              exact this
            · rw [hacc2] at this
              have h1 : (if l0 < fe then fe else l0) ≤ le := this
              rcases lt_or_le l0 fe with hlt | hle
              · rwa [if_pos hlt] at h1
              · rw [if_neg (not_lt.mpr hle)] at h1
                exact le_trans hle h1
          · exact ihB g hg ge hge

end HKPaths

/-- Claim C2: for every successfully computed timeline the animation
duration is at least `minDuration`; and for a fixed positive `scaleFactor`
and fixed `minDuration`, of two successfully computed timelines the one
with the smaller global real duration never has the larger animation
duration (monotone non-decreasing in `globalRealDurationMs`). -/
theorem HKPaths.animationDuration_floor_monotone
    (fl1 fl2 : List HKPaths.Flight) (now1 now2 scaleFactor minDuration : ℚ)
    (hsf : 0 < scaleFactor) (_hmd : 0 < minDuration)
    (gt1 gt2 : HKPaths.GlobalTimeline)
    (h1 : HKPaths.calcGlobalTimelineResult fl1 now1 scaleFactor minDuration = Except.ok gt1)
    (h2 : HKPaths.calcGlobalTimelineResult fl2 now2 scaleFactor minDuration = Except.ok gt2)
    (hle : gt1.latestEnd - gt1.earliestStart ≤ gt2.latestEnd - gt2.earliestStart) :
    minDuration ≤ gt1.animationDuration ∧
    gt1.animationDuration ≤ gt2.animationDuration := by
  obtain ⟨-, -, hd1⟩ := HKPaths.calcGlobalTimelineResult_ok_spec fl1 now1 _ _ gt1 h1
  obtain ⟨-, -, hd2⟩ := HKPaths.calcGlobalTimelineResult_ok_spec fl2 now2 _ _ gt2 h2
  rw [hd1, hd2]
  refine ⟨le_max_right _ _, max_le_max ?_ le_rfl⟩
  exact div_le_div_of_nonneg_right hle hsf.le

namespace HKPaths

/-- Concrete evaluation: the timeline computed for the batch `[flA, flB]`
with `now = 0`, `scaleFactor = 3600`, `minDuration = 30`. -/
lemma calc_flAB :
    calcGlobalTimelineResult [flA, flB] 0 3600 30 = Except.ok gtAB := by
  have hscan : scanSpan [flA, flB] = (some 0, some 5400000) := by
    simp [scanSpan, spanStep, firstTs, lastTs, flA, flB, trackAt]
    norm_num
  simp [calcGlobalTimelineResult, hscan, gtAB]
  norm_num

/-- Concrete evaluation: the timeline computed for the batch `[flA]` with
`now = 0`, `scaleFactor = 3600`, `minDuration = 30`. -/
lemma calc_flA :
    calcGlobalTimelineResult [flA] 0 3600 30 = Except.ok gtA := by
  have hscan : scanSpan [flA] = (some 0, some 3600000) := by
    simp [scanSpan, spanStep, firstTs, lastTs, flA, trackAt]
  simp [calcGlobalTimelineResult, hscan, gtA]
  norm_num

/-- A time-ascending track list has its first timestamp at most its last. -/
lemma firstTs_le_lastTs : ∀ (ts : List Track), TimeAsc ts →
    ∀ fs fe, firstTs ts = some fs → lastTs ts = some fe → fs ≤ fe := by
  intro ts
  induction ts with
  | nil =>
    intro _ fs fe h1
    simp [firstTs] at h1
  | cons t rest ih =>
    intro h fs fe h1 h2
    cases rest with
    | nil =>
      simp [firstTs] at h1
      simp [lastTs] at h2
      rw [← h1, ← h2]
    | cons t2 r2 =>
      obtain ⟨h12, h'⟩ := List.chain'_cons.mp h
      have h1' : t.timestamp = fs := by simpa [firstTs] using h1
      have h2' : lastTs (t2 :: r2) = some fe := by
        rw [← h2]
        simp [lastTs]
      have := ih h' t2.timestamp fe (by simp [firstTs]) h2'
      rw [← h1']
      exact le_trans h12 this
lemma foldl_spanStep_order (flights : List Flight) :
    ∀ (acc : Option ℚ × Option ℚ),
      (∀ f ∈ flights, ∀ fs fe,
        firstTs f.tracks = some fs → lastTs f.tracks = some fe → fs ≤ fe) →
      (acc.1 = none → acc.2 = none) → (acc.2 = none → acc.1 = none) →
      (∀ e l, acc.1 = some e → acc.2 = some l → e ≤ l) →
      ∀ e l, (flights.foldl spanStep acc).1 = some e →
        (flights.foldl spanStep acc).2 = some l → e ≤ l := by
  induction flights with
  | nil =>
    intro acc _ _ _ hord e l h1 h2
    exact hord e l h1 h2
  | cons f rest ih =>
    intro acc hasc hp1 hp2 hord e l h1 h2
    rw [List.foldl_cons] at h1 h2
    rcases hfs : firstTs f.tracks with _ | fs
    · have hnil : f.tracks = [] := by
        cases htr : f.tracks with
        | nil => rfl
        | cons t ts => rw [htr] at hfs; simp [firstTs] at hfs
      have hstep : spanStep acc f = acc := by simp [spanStep, firstTs, hnil]
      rw [hstep] at h1 h2
      exact ih acc (fun g hg => hasc g (List.mem_cons_of_mem f hg)) hp1 hp2 hord e l h1 h2
    · rcases hfe : lastTs f.tracks with _ | fe
      · exfalso
        cases htr : f.tracks with
        | nil =>
          rw [htr] at hfs
          simp [firstTs] at hfs
        | cons t ts =>
          rw [htr] at hfe
          simp [lastTs] at hfe
      · have hfsfe : fs ≤ fe := hasc f (List.mem_cons_self f rest) fs fe hfs hfe
        have hstep : spanStep acc f =
            (some (match acc.1 with | none => fs | some e => if fs < e then fs else e),
             some (match acc.2 with | none => fe | some l => if l < fe then fe else l)) := by
          simp [spanStep, hfs, hfe]
        rw [hstep] at h1 h2
        refine ih _ (fun g hg => hasc g (List.mem_cons_of_mem f hg)) (by simp) (by simp)
          ?_ e l h1 h2
        intro e' l' he' hl'
        obtain he' := Option.some.inj he'
        obtain hl' := Option.some.inj hl'
        rcases hacc1 : acc.1 with _ | e0
        · have hacc2 : acc.2 = none := hp1 hacc1
          rw [hacc1] at he'
          rw [hacc2] at hl'
          rw [← he', ← hl']
          exact hfsfe
        · rcases hacc2 : acc.2 with _ | l0
          · exact absurd (hp2 hacc2) (by simp [hacc1])
          · have he0l0 : e0 ≤ l0 := hord e0 l0 hacc1 hacc2
            rw [hacc1] at he'
            rw [hacc2] at hl'
            have he2 : (if fs < e0 then fs else e0) = e' := he'
            have hl2 : (if l0 < fe then fe else l0) = l' := hl'
            have hle1 : e' ≤ e0 := by
              rw [← he2]
              rcases lt_or_le fs e0 with hlt | hge
              · rw [if_pos hlt]
                exact le_of_lt hlt
              · rw [if_neg (not_lt.mpr hge)]
            have hle2 : l0 ≤ l' := by
              rw [← hl2]
              rcases lt_or_le l0 fe with hlt | hge
              · rw [if_pos hlt]
                exact le_of_lt hlt
              · rw [if_neg (not_lt.mpr hge)]
            exact le_trans hle1 (le_trans he0l0 hle2)

/-- Both flights of the concrete scenario are time-ascending. -/
lemma timeAsc_flAB : ∀ f ∈ [flA, flB], TimeAsc f.tracks := by
  intro f hf
  simp only [List.mem_cons, List.not_mem_nil, or_false] at hf
  rcases hf with rfl | rfl
  · simp only [TimeAsc, flA, trackAt, List.chain'_cons, List.chain'_singleton, and_true]
    norm_num
  · simp only [TimeAsc, flB, trackAt, List.chain'_cons, List.chain'_singleton, and_true]
    norm_num

end HKPaths

/-- Witness for C2 at concrete batches: `[flA]` (real span 3600000 ms) and
`[flA, flB]` (real span 5400000 ms) with `scaleFactor = 3600`,
`minDuration = 30` give durations 1000 ≤ 1500, both at least 30. -/
theorem HKPaths.animationDuration_floor_monotone_witness :
    (30 : ℚ) ≤ HKPaths.gtA.animationDuration ∧
    HKPaths.gtA.animationDuration ≤ HKPaths.gtAB.animationDuration :=
  HKPaths.animationDuration_floor_monotone [HKPaths.flA] [HKPaths.flA, HKPaths.flB]
    0 0 3600 30 (by norm_num) (by norm_num) HKPaths.gtA HKPaths.gtAB
    HKPaths.calc_flA HKPaths.calc_flAB (by norm_num [HKPaths.gtA, HKPaths.gtAB])

/-- Claim C4: for every successfully computed timeline over a batch whose
trajectories are each time-ascending, `earliestStart ≤ latestEnd`, and
every trajectory's first and last sample timestamps lie within
`[earliestStart, latestEnd]`. -/
theorem HKPaths.globalSpan_bounds (flights : List HKPaths.Flight)
    (now scaleFactor minDuration : ℚ) (gt : HKPaths.GlobalTimeline)
    (hasc : ∀ f ∈ flights, HKPaths.TimeAsc f.tracks)
    (h : HKPaths.calcGlobalTimelineResult flights now scaleFactor minDuration = Except.ok gt) :
    gt.earliestStart ≤ gt.latestEnd ∧
    ∀ f ∈ flights, ∀ fs fe,
      HKPaths.firstTs f.tracks = some fs → HKPaths.lastTs f.tracks = some fe →
      gt.earliestStart ≤ fs ∧ fs ≤ fe ∧ fe ≤ gt.latestEnd := by
  obtain ⟨hscan, -, -⟩ := HKPaths.calcGlobalTimelineResult_ok_spec _ _ _ _ _ h
  have hpair : ∀ g ∈ flights, ∀ fs fe,
      HKPaths.firstTs g.tracks = some fs → HKPaths.lastTs g.tracks = some fe → fs ≤ fe :=
    fun g hg fs fe h1 h2 => HKPaths.firstTs_le_lastTs g.tracks (hasc g hg) fs fe h1 h2
  have h1 : (flights.foldl HKPaths.spanStep (none, none)).1 = some gt.earliestStart := by
    rw [show flights.foldl HKPaths.spanStep (none, none) = HKPaths.scanSpan flights from rfl,
      hscan]
  have h2 : (flights.foldl HKPaths.spanStep (none, none)).2 = some gt.latestEnd := by
    rw [show flights.foldl HKPaths.spanStep (none, none) = HKPaths.scanSpan flights from rfl,
      hscan]
  constructor
  · exact HKPaths.foldl_spanStep_order flights (none, none) hpair (fun _ => rfl) (fun _ => rfl)
      (by simp) gt.earliestStart gt.latestEnd h1 h2
  · intro f hf fs fe hfs hfe
    refine ⟨?_, hpair f hf fs fe hfs hfe, ?_⟩
    · exact (HKPaths.foldl_spanStep_fst_le flights (none, none) gt.earliestStart h1).2
        f hf fs hfs
    · exact (HKPaths.foldl_spanStep_snd_ge flights (none, none) gt.latestEnd h2).2
        f hf fe hfe

/-- Witness for C4 at the concrete two-flight batch `[flA, flB]`: the span
is `[0, 5400000]` and flight B's first/last timestamps 1800000/5400000 lie
within it. -/
theorem HKPaths.globalSpan_bounds_witness :
    HKPaths.gtAB.earliestStart ≤ HKPaths.gtAB.latestEnd ∧
    (HKPaths.gtAB.earliestStart ≤ 1800000 ∧ (1800000 : ℚ) ≤ 5400000 ∧
      (5400000 : ℚ) ≤ HKPaths.gtAB.latestEnd) :=
  ⟨(HKPaths.globalSpan_bounds [HKPaths.flA, HKPaths.flB] 0 3600 30 HKPaths.gtAB
      HKPaths.timeAsc_flAB HKPaths.calc_flAB).1,
   (HKPaths.globalSpan_bounds [HKPaths.flA, HKPaths.flB] 0 3600 30 HKPaths.gtAB
      HKPaths.timeAsc_flAB HKPaths.calc_flAB).2 HKPaths.flB (by simp) 1800000 5400000
      (by simp [HKPaths.firstTs, HKPaths.flB, HKPaths.trackAt])
      (by simp [HKPaths.lastTs, HKPaths.flB, HKPaths.trackAt])⟩

namespace HKPaths

/-- A finite `jsAddQ` result comes from a finite second operand. -/
lemma jsAddQ_num_inv (a : ℚ) (b : JSNum) (c : ℚ) (h : jsAddQ a b = JSNum.num c) :
    ∃ q, b = JSNum.num q ∧ c = a + q := by
  cases b with
  | num q => exact ⟨q, rfl, (JSNum.num.inj h).symm⟩
  | nan => exact absurd h (by simp [jsAddQ])
  | posInf => exact absurd h (by simp [jsAddQ])
  | negInf => exact absurd h (by simp [jsAddQ])

/-- A finite `jsMulQ` result comes from a finite first operand. -/
lemma jsMulQ_num_inv (a : JSNum) (b : ℚ) (c : ℚ) (h : jsMulQ a b = JSNum.num c) :
    ∃ q, a = JSNum.num q ∧ c = q * b := by
  cases a with
  | num q => exact ⟨q, rfl, (JSNum.num.inj h).symm⟩
  | nan => exact absurd h (by simp [jsMulQ])
  | posInf =>
    exfalso
    rcases lt_trichotomy (0 : ℚ) b with hb | hb | hb
    · simp [jsMulQ, hb] at h
    · simp [jsMulQ, hb.symm, lt_irrefl] at h
    · simp [jsMulQ, not_lt.mpr (le_of_lt hb), hb] at h
  | negInf =>
    exfalso
    rcases lt_trichotomy (0 : ℚ) b with hb | hb | hb
    · simp [jsMulQ, hb] at h
    · simp [jsMulQ, hb.symm, lt_irrefl] at h
    · simp [jsMulQ, not_lt.mpr (le_of_lt hb), hb] at h

/-- A finite `jsDivQ` result requires a nonzero denominator, and is then
the exact rational quotient. -/
lemma jsDivQ_num_inv (a b c : ℚ) (h : jsDivQ a b = JSNum.num c) :
    b ≠ 0 ∧ c = a / b := by
  by_cases hb : b = 0
  · exfalso
    by_cases ha : a = 0
    · simp [jsDivQ, hb, ha] at h
    · by_cases hpos : 0 < a
      · simp [jsDivQ, hb, ha, hpos] at h
      · simp [jsDivQ, hb, ha, hpos] at h
  · refine ⟨hb, ?_⟩
    simp only [jsDivQ, if_neg hb] at h
    exact (JSNum.num.inj h).symm

/-- Inversion of a finite mapped start time: the global span is
non-degenerate and the value is the exact linear-mapping formula. -/
lemma mappedStartTime_num_inv (gt : GlobalTimeline) (realStartTime ms : ℚ)
    (h : mappedStartTime gt realStartTime = JSNum.num ms) :
    gt.latestEnd - gt.earliestStart ≠ 0 ∧
    ms = gt.animationStart +
      ((realStartTime - gt.earliestStart) / (gt.latestEnd - gt.earliestStart)) *
        gt.animationDuration := by
  obtain ⟨q1, hq1, hc1⟩ := jsAddQ_num_inv _ _ _ h
  obtain ⟨q2, hq2, hc2⟩ := jsMulQ_num_inv _ _ _ hq1
  obtain ⟨hb, hq⟩ := jsDivQ_num_inv _ _ _ hq2
  exact ⟨hb, by rw [hc1, hc2, hq]⟩

/-- Inversion of a finite mapped end time. -/
lemma mappedEndTime_num_inv (gt : GlobalTimeline) (realEndTime me : ℚ)
    (h : mappedEndTime gt realEndTime = JSNum.num me) :
    gt.latestEnd - gt.earliestStart ≠ 0 ∧
    me = gt.animationStart +
      ((realEndTime - gt.earliestStart) / (gt.latestEnd - gt.earliestStart)) *
        gt.animationDuration := by
  obtain ⟨q1, hq1, hc1⟩ := jsAddQ_num_inv _ _ _ h
  obtain ⟨q2, hq2, hc2⟩ := jsMulQ_num_inv _ _ _ hq1
  obtain ⟨hb, hq⟩ := jsDivQ_num_inv _ _ _ hq2
  exact ⟨hb, by rw [hc1, hc2, hq]⟩

end HKPaths

/-- Claim C3: for a timeline computed with nonnegative `minDuration`, and a
trajectory whose first/last timestamps `rs ≤ re` lie within the global
span, whenever `drawFlightPath`'s mapping produces finite compressed times
`ms`/`me` they satisfy `animationStart ≤ ms ≤ me ≤ animationStart +
animationDuration`. -/
theorem HKPaths.mappedInterval_within_clock (flights : List HKPaths.Flight)
    (now scaleFactor minDuration : ℚ) (gt : HKPaths.GlobalTimeline)
    (hmd : 0 ≤ minDuration)
    (hok : HKPaths.calcGlobalTimelineResult flights now scaleFactor minDuration = Except.ok gt)
    (rs re ms me : ℚ)
    (h1 : gt.earliestStart ≤ rs) (h2 : rs ≤ re) (h3 : re ≤ gt.latestEnd)
    (hms : HKPaths.mappedStartTime gt rs = HKPaths.JSNum.num ms)
    (hme : HKPaths.mappedEndTime gt re = HKPaths.JSNum.num me) :
    gt.animationStart ≤ ms ∧ ms ≤ me ∧
    me ≤ gt.animationStart + gt.animationDuration := by
  obtain ⟨-, -, hdur⟩ := HKPaths.calcGlobalTimelineResult_ok_spec _ _ _ _ _ hok
  have hdur0 : 0 ≤ gt.animationDuration := by
    rw [hdur]
    exact le_trans hmd (le_max_right _ _)
  obtain ⟨hgrd, hmsv⟩ := HKPaths.mappedStartTime_num_inv gt rs ms hms
  obtain ⟨-, hmev⟩ := HKPaths.mappedEndTime_num_inv gt re me hme
  have hgrdpos : 0 < gt.latestEnd - gt.earliestStart := by
    rcases lt_or_le 0 (gt.latestEnd - gt.earliestStart) with hp | hle
    · exact hp
    · exfalso
      apply hgrd
      have : gt.latestEnd - gt.earliestStart ≤ 0 := hle
      have hge : 0 ≤ gt.latestEnd - gt.earliestStart := by linarith
      linarith
  refine ⟨?_, ?_, ?_⟩
  · rw [hmsv]
    have hq : 0 ≤ (rs - gt.earliestStart) / (gt.latestEnd - gt.earliestStart) :=
      div_nonneg (by linarith) hgrdpos.le
    nlinarith
  · rw [hmsv, hmev]
    have hq : (rs - gt.earliestStart) / (gt.latestEnd - gt.earliestStart) ≤
        (re - gt.earliestStart) / (gt.latestEnd - gt.earliestStart) :=
      div_le_div_of_nonneg_right (by linarith) hgrdpos.le
    nlinarith
  · rw [hmev]
    have hq : (re - gt.earliestStart) / (gt.latestEnd - gt.earliestStart) ≤ 1 :=
      (div_le_one hgrdpos).mpr (by linarith)
    nlinarith

/-- Witness for C3 at the concrete scenario: flight B maps into
`[502, 1502]`, inside `[2, 1502] = [animationStart,
animationStart + animationDuration]` of the computed timeline. -/
theorem HKPaths.mappedInterval_within_clock_witness :
    HKPaths.gtAB.animationStart ≤ 502 ∧ (502 : ℚ) ≤ 1502 ∧
    (1502 : ℚ) ≤ HKPaths.gtAB.animationStart + HKPaths.gtAB.animationDuration :=
  HKPaths.mappedInterval_within_clock [HKPaths.flA, HKPaths.flB] 0 3600 30 HKPaths.gtAB
    (by norm_num) HKPaths.calc_flAB 1800000 5400000 502 1502
    (by norm_num [HKPaths.gtAB]) (by norm_num) (by norm_num [HKPaths.gtAB])
    (by simp [HKPaths.mappedStartTime, HKPaths.flightStartOffset, HKPaths.jsDivQ,
          HKPaths.jsMulQ, HKPaths.jsAddQ, HKPaths.gtAB]
        norm_num)
    (by simp [HKPaths.mappedEndTime, HKPaths.flightEndOffset, HKPaths.jsDivQ,
          HKPaths.jsMulQ, HKPaths.jsAddQ, HKPaths.gtAB]
        norm_num)

/-- Claim C1: for the §8 scenario — trajectory A spanning `[T0, T0+3600s]`,
trajectory B spanning `[T0+1800s, T0+5400s]` (timestamps in milliseconds),
`scaleFactor = 3600`, `minDuration = 30` — the computation returns
`earliestStart = T0`, `latestEnd = T0+5400000 ms`, a global real duration
of 5400000 ms and `animationDuration = 1500` s, and the mapping places A
at `[animationStart, animationStart+1000]` and B at
`[animationStart+500, animationStart+1500]`. -/
theorem HKPaths.concrete_two_trajectory_scenario (T0 now : ℚ) :
    ∃ gt : HKPaths.GlobalTimeline,
      HKPaths.calcGlobalTimelineResult
          [{ tracks := [HKPaths.trackAt T0, HKPaths.trackAt (T0 + 3600000)] },
           { tracks := [HKPaths.trackAt (T0 + 1800000), HKPaths.trackAt (T0 + 5400000)] }]
          now 3600 30 = Except.ok gt ∧
      gt.earliestStart = T0 ∧
      gt.latestEnd = T0 + 5400000 ∧
      gt.latestEnd - gt.earliestStart = 5400000 ∧
      gt.animationStart = now + 2 ∧
      gt.animationDuration = 1500 ∧
      HKPaths.mappedStartTime gt T0 = HKPaths.JSNum.num gt.animationStart ∧
      HKPaths.mappedEndTime gt (T0 + 3600000) =
        HKPaths.JSNum.num (gt.animationStart + 1000) ∧
      HKPaths.mappedStartTime gt (T0 + 1800000) =
        HKPaths.JSNum.num (gt.animationStart + 500) ∧
      HKPaths.mappedEndTime gt (T0 + 5400000) =
        HKPaths.JSNum.num (gt.animationStart + 1500) := by
  have hstep1 : HKPaths.spanStep (none, none)
      { tracks := [HKPaths.trackAt T0, HKPaths.trackAt (T0 + 3600000)] } =
      (some T0, some (T0 + 3600000)) := by
    simp [HKPaths.spanStep, HKPaths.firstTs, HKPaths.lastTs, HKPaths.trackAt]
  have hstep2 : HKPaths.spanStep (some T0, some (T0 + 3600000))
      { tracks := [HKPaths.trackAt (T0 + 1800000), HKPaths.trackAt (T0 + 5400000)] } =
      (some T0, some (T0 + 5400000)) := by
    simp only [HKPaths.spanStep, HKPaths.firstTs, HKPaths.lastTs, HKPaths.trackAt,
      List.head?_cons, List.getLast?_cons_cons, List.getLast?_singleton, Option.map_some']
    rw [if_neg (by linarith : ¬ T0 + 1800000 < T0),
      if_pos (by linarith : T0 + 3600000 < T0 + 5400000)]
  have hscan : HKPaths.scanSpan
      [{ tracks := [HKPaths.trackAt T0, HKPaths.trackAt (T0 + 3600000)] },
       { tracks := [HKPaths.trackAt (T0 + 1800000), HKPaths.trackAt (T0 + 5400000)] }] =
      (some T0, some (T0 + 5400000)) := by
    rw [HKPaths.scanSpan, List.foldl_cons, hstep1, List.foldl_cons, hstep2, List.foldl_nil]
  have hd1 : T0 + 5400000 - T0 = (5400000 : ℚ) := by ring
  have hd0 : T0 - T0 = (0 : ℚ) := by ring
  have hdA : T0 + 3600000 - T0 = (3600000 : ℚ) := by ring
  have hdB : T0 + 1800000 - T0 = (1800000 : ℚ) := by ring
  refine ⟨{ earliestStart := T0, latestEnd := T0 + 5400000, animationStart := now + 2,
            animationDuration := 1500, realDurationHours := 3 / 2 },
    ?_, rfl, rfl, by ring, rfl, rfl, ?_, ?_, ?_, ?_⟩
  · simp only [HKPaths.calcGlobalTimelineResult, hscan, List.isEmpty_cons,
      Bool.false_eq_true, if_false]
    rw [Except.ok.injEq, HKPaths.GlobalTimeline.mk.injEq]
    refine ⟨rfl, rfl, rfl, ?_, ?_⟩
    · rw [hd1]
      norm_num
    · rw [hd1]
      norm_num
  · simp only [HKPaths.mappedStartTime, HKPaths.flightStartOffset, hd0, hd1]
    norm_num [HKPaths.jsDivQ, HKPaths.jsMulQ, HKPaths.jsAddQ]
  · simp only [HKPaths.mappedEndTime, HKPaths.flightEndOffset, hdA, hd1]
    norm_num [HKPaths.jsDivQ, HKPaths.jsMulQ, HKPaths.jsAddQ]
  · simp only [HKPaths.mappedStartTime, HKPaths.flightStartOffset, hdB, hd1]
    norm_num [HKPaths.jsDivQ, HKPaths.jsMulQ, HKPaths.jsAddQ]
  · simp only [HKPaths.mappedEndTime, HKPaths.flightEndOffset, hd1]
    norm_num [HKPaths.jsDivQ, HKPaths.jsMulQ, HKPaths.jsAddQ]

namespace HKPaths

/-- Linear interpolation at fraction 0 returns the left endpoint. -/
lemma lerpPos_zero (p q : Position) : lerpPos p q 0 = p := by
  cases p
  cases q
  simp only [lerpPos, Position.mk.injEq]
  refine ⟨by ring, by ring, by ring⟩

/-- Linear interpolation at fraction 1 returns the right endpoint. -/
lemma lerpPos_one (p q : Position) : lerpPos p q 1 = q := by
  cases p
  cases q
  simp only [lerpPos, Position.mk.injEq]
  refine ⟨by ring, by ring, by ring⟩

/-- A strictly time-ascending track list is pairwise strictly ascending. -/
lemma strictTimeAsc_pairwise (ts : List Track) (h : StrictTimeAsc ts) :
    ts.Pairwise (fun a b => a.timestamp < b.timestamp) := by
  letI : IsTrans Track (fun a b => a.timestamp < b.timestamp) :=
    ⟨fun _ _ _ h1 h2 => lt_trans h1 h2⟩
  exact List.chain'_iff_pairwise.mp h

/-- A strictly time-ascending track list with at least two samples has its
first timestamp strictly below its last. -/
lemma strict_firstTs_lt_lastTs (ts : List Track) (h : StrictTimeAsc ts)
    (h2 : 2 ≤ ts.length) :
    ∀ fs fe, firstTs ts = some fs → lastTs ts = some fe → fs < fe := by
  intro fs fe h1 hlast
  rcases ts with _ | ⟨t1, _ | ⟨t2, r⟩⟩
  · simp [firstTs] at h1
  · exact absurd h2 (by simp)
  · obtain ⟨h12, h'⟩ := List.chain'_cons.mp h
    have h1' : t1.timestamp = fs := by simpa [firstTs] using h1
    have hlast' : lastTs (t2 :: r) = some fe := by
      rw [← hlast]
      simp [lastTs]
    have hle : t2.timestamp ≤ fe :=
      firstTs_le_lastTs (t2 :: r) (h'.imp fun a b hab => le_of_lt hab) t2.timestamp fe
        (by simp [firstTs]) hlast'
    rw [← h1']
    exact lt_of_lt_of_le h12 hle

/-- `knotTime` is strictly monotone in the sample timestamp when the real
span and the mapped span are both positively oriented. -/
lemma knotTime_strictMono (startT endT realStart realEnd : ℚ)
    (hD : 0 < realEnd - realStart) (hM : 0 < endT - startT)
    {t t' : ℚ} (h : t < t') :
    knotTime startT endT realStart realEnd t <
      knotTime startT endT realStart realEnd t' := by
  unfold knotTime
  have h1 : (t - realStart) / (realEnd - realStart) <
      (t' - realStart) / (realEnd - realStart) :=
    div_lt_div_of_pos_right (by linarith) hD
  have h2 := mul_lt_mul_of_pos_right h1 hM
  linarith

/-- The knot list built from a strictly ascending track list is pairwise
strictly ascending in its times. -/
lemma mappedSamples_pairwise (startT endT realStart realEnd : ℚ)
    (tracks : List Track)
    (hD : 0 < realEnd - realStart) (hM : 0 < endT - startT)
    (hpw : tracks.Pairwise (fun a b => a.timestamp < b.timestamp)) :
    (mappedSamples startT endT realStart realEnd tracks).Pairwise
      (fun a b => a.1 < b.1) := by
  unfold mappedSamples
  rw [List.pairwise_map]
  exact hpw.imp (fun hab => knotTime_strictMono startT endT realStart realEnd hD hM hab)

/-- On a knot list with strictly ascending times, evaluating the
interpolation exactly at a knot's own time returns that knot's position. -/
lemma positionAt_mem_knot : ∀ (l : List (ℚ × Position)),
    l.Pairwise (fun a b => a.1 < b.1) →
    ∀ p ∈ l, positionAt l p.1 = some p.2 := by
  intro l
  induction l with
  | nil =>
    intro _ p hp
    exact absurd hp (List.not_mem_nil p)
  | cons hd tl ih =>
    intro hpw p hp
    obtain ⟨t0, p0⟩ := hd
    obtain ⟨hhd, htl⟩ := List.pairwise_cons.mp hpw
    rcases List.mem_cons.mp hp with hphd | hptl
    · subst hphd
      cases tl with
      | nil => simp [positionAt]
      | cons hd2 rest =>
        obtain ⟨t1, p1⟩ := hd2
        have h01 : t0 < t1 := hhd (t1, p1) (by simp)
        show positionAt ((t0, p0) :: (t1, p1) :: rest) t0 = some p0
        simp only [positionAt]
        rw [if_neg (lt_irrefl t0), if_pos (le_of_lt h01)]
        rw [sub_self, zero_div, lerpPos_zero]
    · cases tl with
      | nil => exact absurd hptl (List.not_mem_nil p)
      | cons hd2 rest =>
        obtain ⟨t1, p1⟩ := hd2
        have h0p : t0 < p.1 := hhd p hptl
        rcases List.mem_cons.mp hptl with hphd2 | hprest
        · subst hphd2
          show positionAt ((t0, p0) :: (t1, p1) :: rest) t1 = some p1
          have h01 : t0 < t1 := h0p
          simp only [positionAt]
          rw [if_neg (not_lt.mpr (le_of_lt h01)), if_pos le_rfl]
          have hne : t1 - t0 ≠ 0 := sub_ne_zero.mpr (ne_of_gt h01)
          rw [div_self hne, lerpPos_one]
        · have h1p : t1 < p.1 := (List.pairwise_cons.mp htl).1 p hprest
          simp only [positionAt]
          rw [if_neg (not_lt.mpr (le_of_lt h0p)), if_neg (not_le.mpr h1p)]
          exact ih htl p (List.mem_cons_of_mem _ hprest)

/-- With a non-degenerate real span, the per-sample animation time of the
code equals the finite placement formula `knotTime`. -/
lemma sampleAnimTime_eq_knot (startT endT realStart realEnd t : ℚ)
    (h : realEnd - realStart ≠ 0) :
    sampleAnimTime startT endT realStart realEnd t =
      JSNum.num (knotTime startT endT realStart realEnd t) := by
  simp [sampleAnimTime, knotTime, jsDivQ, h, jsMulQ, jsAddQ]

end HKPaths

/-- Claim C5: for a trajectory with at least two strictly time-ascending
samples whose span `[rs, re]` lies inside the global span, whenever the
mapping produces finite compressed interval ends `ms`/`me` and the
animation duration is positive, each sample is placed at
`ms + ((t_i − rs)/(re − rs))·(me − ms)` exactly, and evaluating the
linear interpolation at a sample's own compressed time returns that
sample's position with altitude converted feet→meters, exactly. -/
theorem HKPaths.sample_placement_interpolation_exact (gt : HKPaths.GlobalTimeline)
    (tracks : List HKPaths.Track)
    (hlen : 2 ≤ tracks.length) (hasc : HKPaths.StrictTimeAsc tracks)
    (rs re : ℚ)
    (hrs : HKPaths.firstTs tracks = some rs) (hre : HKPaths.lastTs tracks = some re)
    (hes : gt.earliestStart ≤ rs) (hle : re ≤ gt.latestEnd)
    (hdur : 0 < gt.animationDuration)
    (ms me : ℚ)
    (hms : HKPaths.mappedStartTime gt rs = HKPaths.JSNum.num ms)
    (hme : HKPaths.mappedEndTime gt re = HKPaths.JSNum.num me) :
    (∀ tr ∈ tracks,
      HKPaths.sampleAnimTime ms me rs re tr.timestamp =
        HKPaths.JSNum.num (HKPaths.knotTime ms me rs re tr.timestamp)) ∧
    (∀ tr ∈ tracks,
      HKPaths.positionAt (HKPaths.mappedSamples ms me rs re tracks)
          (HKPaths.knotTime ms me rs re tr.timestamp) =
        some { lat := tr.lat, lon := tr.lon, height := HKPaths.feetToMeters tr.alt }) := by
  have hrsre : rs < re := HKPaths.strict_firstTs_lt_lastTs tracks hasc hlen rs re hrs hre
  have hD : 0 < re - rs := by linarith
  obtain ⟨-, hmsv⟩ := HKPaths.mappedStartTime_num_inv gt rs ms hms
  obtain ⟨-, hmev⟩ := HKPaths.mappedEndTime_num_inv gt re me hme
  have hgrdpos : 0 < gt.latestEnd - gt.earliestStart := by linarith
  have hq : (rs - gt.earliestStart) / (gt.latestEnd - gt.earliestStart) <
      (re - gt.earliestStart) / (gt.latestEnd - gt.earliestStart) :=
    div_lt_div_of_pos_right (by linarith) hgrdpos
  have hM : 0 < me - ms := by
    have hdiff : me - ms =
        ((re - gt.earliestStart) / (gt.latestEnd - gt.earliestStart) -
         (rs - gt.earliestStart) / (gt.latestEnd - gt.earliestStart)) *
          gt.animationDuration := by
      rw [hmsv, hmev]
      ring
    rw [hdiff]
    exact mul_pos (by linarith) hdur
  constructor
  · intro tr htr
    exact HKPaths.sampleAnimTime_eq_knot ms me rs re tr.timestamp (ne_of_gt hD)
  · intro tr htr
    have hpw := HKPaths.mappedSamples_pairwise ms me rs re tracks hD hM
      (HKPaths.strictTimeAsc_pairwise tracks hasc)
    have hmem : ((HKPaths.knotTime ms me rs re tr.timestamp,
        ({ lat := tr.lat, lon := tr.lon, height := HKPaths.feetToMeters tr.alt } :
          HKPaths.Position)) ∈ HKPaths.mappedSamples ms me rs re tracks) :=
      List.mem_map_of_mem _ htr
    exact HKPaths.positionAt_mem_knot _ hpw _ hmem

/-- Witness for C5 at the concrete scenario: flight B's first sample maps
to its own compressed time 502 under `[ms, me] = [502, 1502]`, and the
interpolation evaluated there returns its converted position exactly. -/
theorem HKPaths.sample_placement_interpolation_exact_witness :
    HKPaths.sampleAnimTime 502 1502 1800000 5400000
        (HKPaths.trackAt 1800000).timestamp =
      HKPaths.JSNum.num (HKPaths.knotTime 502 1502 1800000 5400000
        (HKPaths.trackAt 1800000).timestamp) ∧
    HKPaths.positionAt
        (HKPaths.mappedSamples 502 1502 1800000 5400000 HKPaths.flB.tracks)
        (HKPaths.knotTime 502 1502 1800000 5400000
          (HKPaths.trackAt 1800000).timestamp) =
      some { lat := (HKPaths.trackAt 1800000).lat
             lon := (HKPaths.trackAt 1800000).lon
             height := HKPaths.feetToMeters (HKPaths.trackAt 1800000).alt } := by
  have h := HKPaths.sample_placement_interpolation_exact HKPaths.gtAB HKPaths.flB.tracks
    (by simp [HKPaths.flB])
    (by simp only [HKPaths.StrictTimeAsc, HKPaths.flB, HKPaths.trackAt,
          List.chain'_cons, List.chain'_singleton, and_true]
        norm_num)
    1800000 5400000
    (by simp [HKPaths.firstTs, HKPaths.flB, HKPaths.trackAt])
    (by simp [HKPaths.lastTs, HKPaths.flB, HKPaths.trackAt])
    (by norm_num [HKPaths.gtAB]) (by norm_num [HKPaths.gtAB]) (by norm_num [HKPaths.gtAB])
    502 1502
    (by simp [HKPaths.mappedStartTime, HKPaths.flightStartOffset, HKPaths.jsDivQ,
          HKPaths.jsMulQ, HKPaths.jsAddQ, HKPaths.gtAB]
        norm_num)
    (by simp [HKPaths.mappedEndTime, HKPaths.flightEndOffset, HKPaths.jsDivQ,
          HKPaths.jsMulQ, HKPaths.jsAddQ, HKPaths.gtAB]
        norm_num)
  exact ⟨h.1 (HKPaths.trackAt 1800000) (by simp [HKPaths.flB]),
         h.2 (HKPaths.trackAt 1800000) (by simp [HKPaths.flB])⟩
